import Mathlib

/-!
Shallow embedding of the Rideau Canal Skateway monitoring dashboard:
the Express server (backend, four read endpoints over the
SensorAggregations container) and the response-application discipline of
the dashboard client poller (public/app.js).

The Cosmos DB container is modelled as a list of aggregate records; the
query `SELECT TOP n * FROM c WHERE c.location = @loc ORDER BY c.windowEnd
DESC` is modelled as filter + sort-descending + take, which is the read
interface the server relies on.  A query that can throw (connectivity
fault) is modelled as a function returning `Except`.
-/

/-- One time-windowed aggregate record for one location, as stored in the
SensorAggregations container and consumed by the server.  `windowEnd` is
the window-end timestamp (ordering key); numeric measurement fields are
carried along but never inspected by the read path. -/
structure AggregateRecord where
  location : String
  windowEnd : Nat
  avgIceThickness : Int
  minIceThickness : Int
  maxIceThickness : Int
  avgSurfaceTemperature : Int
  minSurfaceTemperature : Int
  maxSurfaceTemperature : Int
  maxSnowAccumulation : Int
  avgExternalTemperature : Int
  readingCount : Nat
  safetyStatus : String
deriving DecidableEq

/-- The stored collection (the SensorAggregations container), read-only. -/
abbrev Store := List AggregateRecord

/-- `ORDER BY c.windowEnd DESC`: record `a` precedes record `b` when the
windowEnd of `b` is at most the windowEnd of `a`. -/
def weDesc (a b : AggregateRecord) : Prop := b.windowEnd ≤ a.windowEnd

instance : DecidableRel weDesc := fun a b => Nat.decLe b.windowEnd a.windowEnd

instance : IsTrans AggregateRecord weDesc :=
  ⟨fun _ _ _ h1 h2 => le_trans h2 h1⟩

instance : IsTotal AggregateRecord weDesc :=
  ⟨fun a b => Nat.le_total b.windowEnd a.windowEnd⟩

/-- `SELECT TOP n * FROM c WHERE c.location = @loc ORDER BY c.windowEnd
DESC`: the records of the container at `loc`, ordered by windowEnd
descending, truncated to the first `n`. -/
def queryTopN (store : Store) (loc : String) (n : Nat) : List AggregateRecord :=
  (((store.filter (fun r => r.location == loc)).insertionSort weDesc).take n)

/-- The fixed known location set declared in the server
(`const locations = ...` in the /api/latest and /api/status handlers). -/
def locations : List String := ["Dow\x27s Lake", "Fifth Avenue", "NAC"]

/-- Result of one awaited Cosmos query: the fetched resources, or the
error thrown by the store client. -/
abbrev FetchResult := Except String (List AggregateRecord)

deriving instance DecidableEq for Except

/-- The per-location loop of the GET /api/latest handler.  The whole loop
sits inside a single try block: the first query that throws aborts the
loop (and every record pushed so far is discarded); a location whose
query returns no record is skipped; otherwise `resources[0]` is pushed. -/
def collectLatest (fetchAll : String → FetchResult) :
    List String → Except String (List AggregateRecord)
  | [] => .ok []
  | loc :: rest =>
    match fetchAll loc with
    | .error e => .error e
    | .ok resources =>
      match collectLatest fetchAll rest with
      | .error e => .error e
      | .ok tail =>
        match resources with
        | [] => .ok tail
        | r :: _ => .ok (r :: tail)

/-- HTTP outcome of GET /api/latest: either the 200 body
`{success:true, data}` or the 500 body `{success:false, message}`. -/
inductive LatestResult
  | ok (data : List AggregateRecord)
  | fail (message : String)
deriving DecidableEq

/-- GET /api/latest handler: run the per-location loop; a thrown error is
caught and mapped to the 500 failure response. -/
def apiLatest (fetchAll : String → FetchResult) : LatestResult :=
  match collectLatest fetchAll locations with
  | .ok data => .ok data
  | .error e => .fail e

/-- The store adapter as the handler uses it when the store is reachable:
`SELECT TOP 1 ... ORDER BY c.windowEnd DESC` for one location, never
throwing. -/
def storeFetchLatest (store : Store) (loc : String) : FetchResult :=
  .ok (queryTopN store loc 1)

/-- Value of one hexadecimal digit character, or `none`. -/
def hexDigitVal (c : Char) : Option Nat :=
  if '0' ≤ c ∧ c ≤ '9' then some (c.toNat - 48)
  else if 'A' ≤ c ∧ c ≤ 'F' then some (c.toNat - 55)
  else if 'a' ≤ c ∧ c ≤ 'f' then some (c.toNat - 87)
  else none

/-- Percent-decoding of a character list: each `%hh` escape becomes the
character with code `hh`; a malformed escape is left as-is.  This models
the JS `decodeURIComponent` on the single-byte escapes the server sees in
location identifiers (multi-byte UTF-8 escape sequences are not needed by
any request considered here). -/
def percentDecode : List Char → List Char
  | [] => []
  | '%' :: h :: l :: rest =>
    match hexDigitVal h, hexDigitVal l with
    | some a, some b => Char.ofNat (16 * a + b) :: percentDecode rest
    | _, _ => '%' :: percentDecode (h :: l :: rest)
  | c :: rest => c :: percentDecode rest

/-- `decodeURIComponent(req.params.location)` in the history handler. -/
def decodeURIComponent (s : String) : String :=
  String.mk (percentDecode s.toList)

/-- Leading decimal-digit run of a character list as a number, or `none`
when there is no leading digit (the NaN case of JS `parseInt`). -/
def parseDigits (cs : List Char) : Option Nat :=
  let ds := cs.takeWhile Char.isDigit
  if ds.isEmpty then none
  else some (ds.foldl (fun acc c => 10 * acc + (c.toNat - 48)) 0)

/-- JS `parseInt` on the `limit` query parameter: a missing parameter is
`undefined` and parses to NaN (`none`); otherwise leading whitespace is
skipped, an optional sign is read, and the leading decimal-digit run is
the value (NaN when there is none).  The radix-16 auto-detection of JS
`parseInt` on a `0x` input is irrelevant to the claims and not
modelled. -/
def parseIntJS (s : Option String) : Option Int :=
  match s with
  | none => none
  | some str =>
    let cs := str.toList.dropWhile (fun c => c == ' ' || c == '\t' || c == '\n' || c == '\r')
    match cs with
    | '-' :: rest => (parseDigits rest).map (fun n => -(n : Int))
    | '+' :: rest => (parseDigits rest).map (fun n => (n : Int))
    | rest => (parseDigits rest).map (fun n => (n : Int))

/-- `const limit = parseInt(req.query.limit) || 12`: the `||` falls back
to 12 exactly when `parseInt` produced NaN or 0 (both falsy). -/
def resolveLimit (q : Option String) : Int :=
  match parseIntJS q with
  | none => 12
  | some n => if n = 0 then 12 else n

/-- HTTP outcome of GET /api/history/:location: the 200 body
`{success:true, location, dataPoints, data}` or the 500 body. -/
inductive HistoryResult
  | ok (location : String) (dataPoints : Nat) (data : List AggregateRecord)
  | fail (message : String)
deriving DecidableEq

/-- GET /api/history/:location handler: decode the path parameter,
resolve the limit, query `SELECT TOP limit ... ORDER BY c.windowEnd
DESC`, reverse into chronological order, and answer with the reversed
list and its length; a thrown store error is caught and mapped to the
500 failure response.  No validation of the decoded location ever
happens. -/
def apiHistory (fetchAll : String → Nat → FetchResult) (rawLoc : String)
    (limitQ : Option String) : HistoryResult :=
  let location := decodeURIComponent rawLoc
  let limit := resolveLimit limitQ
  match fetchAll location limit.toNat with
  | .ok resources =>
    let chron := resources.reverse
    .ok location chron.length chron
  | .error e => .fail e

/-- The store adapter for the history query when the store is reachable. -/
def storeFetchHistory (store : Store) (loc : String) (n : Nat) : FetchResult :=
  .ok (queryTopN store loc n)

/-- `SELECT TOP 1 c.safetyStatus FROM c WHERE c.location = @loc ORDER BY
c.windowEnd DESC`, then `resources[0].safetyStatus` when nonempty: the
latest stored safety status of a location, if any. -/
def latestStatus (store : Store) (loc : String) : Option String :=
  ((queryTopN store loc 1).map (fun r => r.safetyStatus)).head?

/-- The three counters of the GET /api/status handler loop. -/
structure Counts where
  countSafe : Nat
  countCaution : Nat
  countUnsafe : Nat
deriving DecidableEq

/-- The per-location loop of GET /api/status: a location with no record
touches no counter; a record with status `"Safe"` increments the safe
counter, `"Caution"` the caution counter, and anything else the third
counter. -/
def statusTally (store : Store) : List String → Counts
  | [] => ⟨0, 0, 0⟩
  | loc :: rest =>
    let c := statusTally store rest
    match latestStatus store loc with
    | none => c
    | some s =>
      if s = "Safe" then { c with countSafe := c.countSafe + 1 }
      else if s = "Caution" then { c with countCaution := c.countCaution + 1 }
      else { c with countUnsafe := c.countUnsafe + 1 }

/-- `unsafeCount > 0 ? Unsafe : cautionCount > 0 ? Caution : Safe`. -/
def overallOf (c : Counts) : String :=
  if c.countUnsafe > 0 then "Unsafe"
  else if c.countCaution > 0 then "Caution"
  else "Safe"

/-- The 200 body of GET /api/status: overall status plus the breakdown
counts (`total` is always the length of the fixed location list). -/
structure StatusResponse where
  overallStatus : String
  breakdownSafe : Nat
  breakdownCaution : Nat
  breakdownUnsafe : Nat
  breakdownTotal : Nat
deriving DecidableEq

/-- GET /api/status handler on a reachable store. -/
def apiStatus (store : Store) : StatusResponse :=
  let c := statusTally store locations
  { overallStatus := overallOf c
    breakdownSafe := c.countSafe
    breakdownCaution := c.countCaution
    breakdownUnsafe := c.countUnsafe
    breakdownTotal := locations.length }

/-- One response arriving at the client poller (`loadHistoricalData` in
public/app.js): a successful body replaces the chart data outright
(`if (result.success) updateCharts(result.data)`) — there is no request
token or generation check; a `success:false` body leaves the chart as it
was. -/
def applyHistoryResponse (chart : Option (List AggregateRecord))
    (result : HistoryResult) : Option (List AggregateRecord) :=
  match result with
  | .ok _ _ data => some data
  | .fail _ => chart

/-- A run of the client poller: the server answer for each issued history
request is applied in arrival order, starting from an empty chart.
`arrivals` lists the requested locations in the order their responses
arrive, which may differ from the order the requests were issued. -/
def runPoller (respond : String → HistoryResult) (arrivals : List String) :
    Option (List AggregateRecord) :=
  arrivals.foldl (fun chart loc => applyHistoryResponse chart (respond loc)) none

/-- The stored status is one of the three known values, or the location
has no record at all. -/
def knownStatus (o : Option String) : Bool :=
  match o with
  | none => true
  | some s => s == "Safe" || s == "Caution" || s == "Unsafe"

/-- The latest status exists and hits the else-branch of the tally
(neither `"Safe"` nor `"Caution"`). -/
def notSafeNotCaution (o : Option String) : Bool :=
  match o with
  | none => false
  | some s => !(s == "Safe") && !(s == "Caution")

/-- A record with a fixed measurement payload, for concrete instances. -/
def mkRec (loc : String) (we : Nat) (st : String) : AggregateRecord :=
  ⟨loc, we, 30, 28, 36, -5, -7, -3, 2, -10, 100, st⟩

/-- Three stored windows for the Dow location (windowEnd 100, 110, 105 in
store order) plus one record for NAC. -/
def store3 : Store :=
  [mkRec "Dow\x27s Lake" 100 "Safe", mkRec "Dow\x27s Lake" 110 "Safe",
   mkRec "Dow\x27s Lake" 105 "Safe", mkRec "NAC" 50 "Caution"]

/-- A store fetch in which exactly the first location
(the Dow location) hits a connectivity fault and the other two lookups
succeed with one record each. -/
def cexFetchOne (loc : String) : FetchResult :=
  if loc == "Dow\x27s Lake" then .error "ECONNREFUSED"
  else .ok [mkRec loc 90 "Safe"]

/-- A store holding one record for a location outside the known set. -/
def storeAtl : Store := [mkRec "Atlantis" 77 "Safe"]

/-- Latest statuses Unsafe / Safe / Caution for the three locations. -/
def storeMix : Store :=
  [mkRec "Dow\x27s Lake" 10 "Unsafe", mkRec "Fifth Avenue" 10 "Safe",
   mkRec "NAC" 10 "Caution"]

/-- One location Safe, the other two with no data at all. -/
def storeSafeNoData : Store := [mkRec "Dow\x27s Lake" 10 "Safe"]

/-- One location Caution, the other two with no data at all. -/
def storeCautionNoData : Store := [mkRec "Dow\x27s Lake" 10 "Caution"]

/-- A record whose stored safetyStatus is outside the three known
values, next to an ordinary Safe record. -/
def storeSlushy : Store :=
  [mkRec "NAC" 60 "Slushy", mkRec "Dow\x27s Lake" 60 "Safe"]

/-- Distinct history data for two locations, for the poller scenario. -/
def storeXY : Store :=
  [mkRec "NAC" 10 "Safe", mkRec "Fifth Avenue" 20 "Caution"]

/-- The server as the poller sees it in the stale-response scenario: the
history endpoint answering over `storeXY` with the default limit. -/
def pollerRespond (loc : String) : HistoryResult :=
  apiHistory (storeFetchHistory storeXY) loc none

/-! ## Helper lemmas -/

theorem collectLatest_error_iff (fetchAll : String → FetchResult) (locs : List String) :
    (∃ e, collectLatest fetchAll locs = .error e)
      ↔ ∃ loc ∈ locs, ∃ e, fetchAll loc = .error e := by
  induction locs with
  | nil => simp [collectLatest]
  | cons loc rest ih =>
    simp only [collectLatest, List.mem_cons]
    cases hf : fetchAll loc with
    | error e => simp [hf]
    | ok resources =>
      cases hr : collectLatest fetchAll rest with
      | error e =>
        have : ∃ e, collectLatest fetchAll rest = .error e := ⟨e, hr⟩
        rw [ih] at this
        obtain ⟨l, hl, he⟩ := this
        simp only [hf]
        constructor
        · intro _; exact ⟨l, Or.inr hl, he⟩
        · intro _; exact ⟨e, rfl⟩
      | ok tail =>
        have hnone : ¬ ∃ e, collectLatest fetchAll rest = .error e := by simp [hr]
        rw [ih] at hnone
        push_neg at hnone
        cases resources with
        | nil =>
          simp only [hf]
          constructor
          · rintro ⟨e, he⟩; exact absurd he (by simp)
          · rintro ⟨l, hl, e, he⟩
            rcases hl with rfl | hl
            · rw [hf] at he; exact absurd he (by simp)
            · exact absurd he (by simpa using hnone l hl e)
        | cons r rs =>
          simp only [hf]
          constructor
          · rintro ⟨e, he⟩; exact absurd he (by simp)
          · rintro ⟨l, hl, e, he⟩
            rcases hl with rfl | hl
            · rw [hf] at he; exact absurd he (by simp)
            · exact absurd he (by simpa using hnone l hl e)

theorem collectLatest_store (store : Store) (locs : List String) :
    collectLatest (storeFetchLatest store) locs =
      .ok (locs.filterMap (fun loc => (queryTopN store loc 1).head?)) := by
  induction locs with
  | nil => rfl
  | cons loc rest ih =>
    simp only [collectLatest, storeFetchLatest, ih, List.filterMap_cons]
    cases h : queryTopN store loc 1 <;> simp [h]

/-! ## Claim theorems -/

/-- C1, counterexample: with a store fetch that faults for exactly one of
the three locations while the other two lookups succeed with records,
GET /api/latest answers the 500 failure body, not a success containing
the two remaining records as the claim states. -/
theorem latest_partial_failure_cex :
    apiLatest cexFetchOne = .fail "ECONNREFUSED"
    ∧ cexFetchOne "Fifth Avenue" = .ok [mkRec "Fifth Avenue" 90 "Safe"]
    ∧ cexFetchOne "NAC" = .ok [mkRec "NAC" 90 "Safe"]
    ∧ apiLatest cexFetchOne
        ≠ .ok [mkRec "Fifth Avenue" 90 "Safe", mkRec "NAC" 90 "Safe"] := by
  decide

/-- C1 (amended): GET /api/latest returns the 500 failure body exactly
when at least one per-location lookup throws; every per-location lookup
succeeding is required for (and guarantees) a success response.  In
particular a connectivity fault for every location still yields the 500
failure, but so does a fault for a single location. -/
theorem apiLatest_fail_iff_lookup_failure (fetchAll : String → FetchResult) :
    (∃ msg, apiLatest fetchAll = .fail msg)
      ↔ ∃ loc ∈ locations, ∃ e, fetchAll loc = .error e := by
  rw [← collectLatest_error_iff]
  unfold apiLatest
  cases h : collectLatest fetchAll locations <;> simp [h]

/-- C2, counterexample: the decoded location "Atlantis" is outside the
known location set, yet GET /api/history/Atlantis is not rejected as a
client error: the store is queried for it and the response is a success
carrying the matching stored record. -/
theorem history_unknown_location_cex :
    locations.contains "Atlantis" = false
    ∧ apiHistory (storeFetchHistory storeAtl) "Atlantis" none
        = .ok "Atlantis" 1 [mkRec "Atlantis" 77 "Safe"] := by
  decide

/-- C2 (amended): the history handler URL-decodes the location identifier
and passes it straight to the store query; no validation against the
known location set happens, and every request for any location -- known
or unknown -- gets a success response built from whatever the store
returns for the decoded identifier. -/
theorem apiHistory_decodes_never_rejects (store : Store) (rawLoc : String)
    (limitQ : Option String) :
    apiHistory (storeFetchHistory store) rawLoc limitQ
      = .ok (decodeURIComponent rawLoc)
          ((queryTopN store (decodeURIComponent rawLoc)
              (resolveLimit limitQ).toNat).reverse.length)
          ((queryTopN store (decodeURIComponent rawLoc)
              (resolveLimit limitQ).toNat).reverse) := rfl

/-- C3, counterexample: the resolved limit is not clamped to 1..500: a
caller-supplied limit of 1000 is used as 1000, and a negative
caller-supplied limit passes through below 1. -/
theorem resolveLimit_unclamped_cex :
    resolveLimit (some "1000") = 1000
    ∧ 500 < resolveLimit (some "1000")
    ∧ resolveLimit (some "-3") = -3
    ∧ resolveLimit (some "-3") < 1 := by
  decide

/-- C3 (amended): the resolved limit falls back to the default 12 exactly
when the caller-supplied limit is missing or malformed (parseInt NaN) or
parses to 0; any other parsed integer -- negative or arbitrarily large --
is used for the store query as-is, with no clamping to 1..500. -/
theorem resolveLimit_default_or_passthrough (q : Option String) :
    (parseIntJS q = none → resolveLimit q = 12)
    ∧ (parseIntJS q = some 0 → resolveLimit q = 12)
    ∧ ∀ n : Int, n ≠ 0 → parseIntJS q = some n → resolveLimit q = n := by
  refine ⟨fun h => ?_, fun h => ?_, fun n hn h => ?_⟩
  · simp [resolveLimit, h]
  · simp [resolveLimit, h]
  · simp [resolveLimit, h, hn]

/-- C3, witness: the amended theorem applied at a concrete passthrough
input and at the concrete default inputs. -/
theorem resolveLimit_default_or_passthrough_witness :
    resolveLimit (some "250") = 250 ∧ resolveLimit (some "0") = 12
    ∧ resolveLimit none = 12 :=
  ⟨(resolveLimit_default_or_passthrough (some "250")).2.2 250 (by decide) (by decide),
   (resolveLimit_default_or_passthrough (some "0")).2.1 (by decide),
   (resolveLimit_default_or_passthrough none).1 (by decide)⟩

/-- C9, counterexample: a history fetch for NAC is issued, then the user
switches to Fifth Avenue; the Fifth Avenue response arrives first and the
stale NAC response arrives last.  The final chart holds the NAC data: the
stale response was applied, not discarded, and it overwrote the chart
produced by the more recent Fifth Avenue request. -/
theorem poller_stale_overwrite_cex :
    runPoller pollerRespond ["Fifth Avenue", "NAC"] = some [mkRec "NAC" 10 "Safe"]
    ∧ pollerRespond "Fifth Avenue"
        = .ok "Fifth Avenue" 1 [mkRec "Fifth Avenue" 20 "Caution"]
    ∧ runPoller pollerRespond ["Fifth Avenue", "NAC"]
        ≠ some [mkRec "Fifth Avenue" 20 "Caution"] := by
  decide

/-- C9 (amended): the client poller performs no request correlation: each
successful history response overwrites the chart unconditionally on
arrival, so after any sequence of arrivals the chart holds exactly the
data of the last successful response to arrive -- which may belong to a
superseded (stale) request rather than to the most recently issued one. -/
theorem poller_last_arrival_wins (respond : String → HistoryResult)
    (arrivals : List String) (loc l : String) (dp : Nat)
    (data : List AggregateRecord) (h : respond loc = .ok l dp data) :
    runPoller respond (arrivals ++ [loc]) = some data := by
  unfold runPoller
  rw [List.foldl_append]
  simp [applyHistoryResponse, h]

/-- C9, witness: the amended theorem applied to the stale-arrival
scenario; the chart ends as the data of the last response to arrive. -/
theorem poller_last_arrival_wins_witness :
    runPoller pollerRespond (["Fifth Avenue"] ++ ["NAC"])
      = some [mkRec "NAC" 10 "Safe"] :=
  poller_last_arrival_wins pollerRespond ["Fifth Avenue"] "NAC" "NAC" 1
    [mkRec "NAC" 10 "Safe"] (by decide)

/-- C10: in every successful response of GET /api/history/:location, the
dataPoints field equals the length of the data array of that same
response. -/
theorem apiHistory_dataPoints_eq_length (fetchAll : String → Nat → FetchResult)
    (rawLoc : String) (limitQ : Option String) (loc : String) (dp : Nat)
    (data : List AggregateRecord)
    (h : apiHistory fetchAll rawLoc limitQ = .ok loc dp data) :
    dp = data.length := by
  simp only [apiHistory] at h
  cases hf : fetchAll (decodeURIComponent rawLoc) (resolveLimit limitQ).toNat with
  | ok resources =>
    rw [hf] at h
    simp only [HistoryResult.ok.injEq] at h
    rw [← h.2.1, ← h.2.2]
  | error e => rw [hf] at h; exact absurd h (by simp)

/-- C10, witness: the theorem applied to a concrete successful response. -/
theorem apiHistory_dataPoints_eq_length_witness : (2 : Nat) = 
    [mkRec "Dow\x27s Lake" 105 "Safe", mkRec "Dow\x27s Lake" 110 "Safe"].length :=
  apiHistory_dataPoints_eq_length (storeFetchHistory store3) "Dow%27s%20Lake"
    (some "2") "Dow\x27s Lake" 2
    [mkRec "Dow\x27s Lake" 105 "Safe", mkRec "Dow\x27s Lake" 110 "Safe"] (by decide)

theorem insertionSort_weDesc_eq_nil_iff {l : List AggregateRecord} :
    l.insertionSort weDesc = [] ↔ l = [] := by
  constructor
  · intro h
    have p := List.perm_insertionSort weDesc l
    rw [h] at p
    exact p.symm.eq_nil
  · intro h; subst h; rfl

theorem mem_queryTopN {store : Store} {loc : String} {n : Nat}
    {r : AggregateRecord} (h : r ∈ queryTopN store loc n) : r.location = loc := by
  unfold queryTopN at h
  have h1 := (List.take_sublist n _).subset h
  rw [List.mem_insertionSort] at h1
  exact by simpa using (List.mem_filter.mp h1).2

theorem queryTopN_pairwise_lt (store : Store) (loc : String) (n : Nat)
    (hnodup : (store.filter (fun r => r.location == loc)).Pairwise
      (fun a b => a.windowEnd ≠ b.windowEnd)) :
    (queryTopN store loc n).Pairwise (fun a b => b.windowEnd < a.windowEnd) := by
  unfold queryTopN
  have hsort : List.Sorted weDesc
      ((store.filter (fun r => r.location == loc)).insertionSort weDesc) :=
    List.sorted_insertionSort weDesc _
  have hperm := List.perm_insertionSort weDesc
    (store.filter (fun r => r.location == loc))
  have hnd : ((store.filter (fun r => r.location == loc)).insertionSort
      weDesc).Pairwise (fun a b => a.windowEnd ≠ b.windowEnd) :=
    (List.Perm.pairwise_iff (fun hab => hab.symm) hperm).mpr hnodup
  have hlt := (List.Pairwise.and hsort hnd).imp
    (fun hab => lt_of_le_of_ne hab.1 (Ne.symm hab.2))
  exact List.Pairwise.sublist (List.take_sublist n _) hlt

theorem queryTopN_head_max {store : Store} {loc : String} {e : AggregateRecord}
    (he : (queryTopN store loc 1).head? = some e) :
    ∀ s ∈ store, s.location = loc → s.windowEnd ≤ e.windowEnd := by
  intro s hs hsl
  unfold queryTopN at he
  have hsort : List.Sorted weDesc
      ((store.filter (fun r => r.location == loc)).insertionSort weDesc) :=
    List.sorted_insertionSort weDesc _
  have hmem : s ∈ (store.filter (fun r => r.location == loc)).insertionSort weDesc := by
    rw [List.mem_insertionSort, List.mem_filter]
    exact ⟨hs, by simp [hsl]⟩
  cases hl : (store.filter (fun r => r.location == loc)).insertionSort weDesc with
  | nil => rw [hl] at he; simp at he
  | cons a t =>
    rw [hl] at he
    simp only [List.take_succ_cons, List.take_zero, List.head?_cons,
      Option.some.injEq] at he
    subst he
    rw [hl] at hmem hsort
    rcases List.mem_cons.mp hmem with rfl | hmem
    · exact le_refl _
    · exact List.rel_of_sorted_cons hsort s hmem

theorem queryTopN_one_nil_iff (store : Store) (loc : String) :
    queryTopN store loc 1 = [] ↔ ∀ r ∈ store, ¬ r.location = loc := by
  unfold queryTopN
  rw [List.take_eq_nil_iff]
  constructor
  · rintro (h | h)
    · exact absurd h one_ne_zero
    · rw [insertionSort_weDesc_eq_nil_iff, List.filter_eq_nil_iff] at h
      intro r hr hl
      exact h r hr (by simp [hl])
  · intro h
    refine Or.inr ?_
    rw [insertionSort_weDesc_eq_nil_iff, List.filter_eq_nil_iff]
    intro r hr hb
    exact h r hr (by simpa using hb)

/-- C4: for every request, the history operation answers with the reverse
of the windowEnd-descending store query: a success whose data has length
at most the resolved limit and, provided the stored windowEnds of the
queried location are pairwise distinct (the data-model invariant on
`(location, windowEnd)`), is strictly ascending by windowEnd with no
duplicate windowEnd. -/
theorem apiHistory_chronological (store : Store) (rawLoc : String)
    (limitQ : Option String)
    (hnodup : (store.filter
        (fun r => r.location == decodeURIComponent rawLoc)).Pairwise
      (fun a b => a.windowEnd ≠ b.windowEnd)) :
    ∃ data, apiHistory (storeFetchHistory store) rawLoc limitQ
        = .ok (decodeURIComponent rawLoc) data.length data
      ∧ data.length ≤ (resolveLimit limitQ).toNat
      ∧ data.Pairwise (fun a b => a.windowEnd < b.windowEnd)
      ∧ data.Pairwise (fun a b => a.windowEnd ≠ b.windowEnd)
      ∧ data = (queryTopN store (decodeURIComponent rawLoc)
          (resolveLimit limitQ).toNat).reverse := by
  refine ⟨(queryTopN store (decodeURIComponent rawLoc)
      (resolveLimit limitQ).toNat).reverse, rfl, ?_, ?_, ?_, rfl⟩
  · rw [List.length_reverse]
    unfold queryTopN
    rw [List.length_take]
    exact min_le_left _ _
  · rw [List.pairwise_reverse]
    exact queryTopN_pairwise_lt store _ _ hnodup
  · rw [List.pairwise_reverse]
    exact (queryTopN_pairwise_lt store _ _ hnodup).imp (fun hab => Nat.ne_of_lt hab)

/-- C4, witness: three stored windows for the Dow location with windowEnd
100, 105, 110; the request with percent-encoded location and limit 2
succeeds with exactly the records at 105 and 110, in that order. -/
theorem apiHistory_chronological_witness :
    ((store3.filter
        (fun r => r.location == decodeURIComponent "Dow%27s%20Lake")).Pairwise
      (fun a b => a.windowEnd ≠ b.windowEnd))
    ∧ apiHistory (storeFetchHistory store3) "Dow%27s%20Lake" (some "2")
        = .ok "Dow\x27s Lake" 2
            [mkRec "Dow\x27s Lake" 105 "Safe", mkRec "Dow\x27s Lake" 110 "Safe"]
    ∧ (∃ data, apiHistory (storeFetchHistory store3) "Dow%27s%20Lake" (some "2")
        = .ok (decodeURIComponent "Dow%27s%20Lake") data.length data
      ∧ data.length ≤ (resolveLimit (some "2")).toNat
      ∧ data.Pairwise (fun a b => a.windowEnd < b.windowEnd)
      ∧ data.Pairwise (fun a b => a.windowEnd ≠ b.windowEnd)
      ∧ data = (queryTopN store3 (decodeURIComponent "Dow%27s%20Lake")
          (resolveLimit (some "2")).toNat).reverse) :=
  ⟨by decide, by decide,
   apiHistory_chronological store3 "Dow%27s%20Lake" (some "2") (by decide)⟩

theorem queryTopN_head_location {store : Store} {loc : String}
    {e : AggregateRecord} (he : (queryTopN store loc 1).head? = some e) :
    e.location = loc := by
  cases hq : queryTopN store loc 1 with
  | nil => rw [hq] at he; simp at he
  | cons a t =>
    rw [hq] at he
    simp only [List.head?_cons, Option.some.injEq] at he
    subst he
    exact mem_queryTopN (by rw [hq]; exact List.mem_cons_self a t)

theorem countP_latest_heads (store : Store) (loc : String) (locs : List String) :
    ((locs.filterMap (fun l => (queryTopN store l 1).head?)).countP
        (fun x => x.location == loc))
      = locs.countP (fun l => l == loc && ((queryTopN store l 1).head?).isSome) := by
  induction locs with
  | nil => rfl
  | cons l rest ih =>
    cases h : (queryTopN store l 1).head? with
    | none => simp [List.filterMap_cons, List.countP_cons, h, ih]
    | some e =>
      have hel : e.location = l := queryTopN_head_location h
      simp [List.filterMap_cons, List.countP_cons, h, ih, hel]

/-- C5: for every known location that has at least one stored record, the
success payload of GET /api/latest contains exactly one entry for that
location, and that entry attains the maximal windowEnd among the stored
records of the location; a known location with no records contributes no
entry at all (omission, not an error). -/
theorem apiLatest_unique_maximal (store : Store) (loc : String)
    (hloc : loc ∈ locations) :
    ∃ data, apiLatest (storeFetchLatest store) = .ok data
      ∧ ((∃ r ∈ store, r.location = loc) →
          data.countP (fun x => x.location == loc) = 1
          ∧ ∀ e ∈ data, e.location = loc →
              ∀ s ∈ store, s.location = loc → s.windowEnd ≤ e.windowEnd)
      ∧ ((∀ r ∈ store, ¬ r.location = loc) →
          data.countP (fun x => x.location == loc) = 0) := by
  refine ⟨locations.filterMap (fun l => (queryTopN store l 1).head?), ?_, ?_, ?_⟩
  · unfold apiLatest
    rw [collectLatest_store]
  · intro hex
    have hne : ¬ queryTopN store loc 1 = [] := by
      rw [queryTopN_one_nil_iff]
      push_neg
      obtain ⟨r, hr, hrl⟩ := hex
      exact ⟨r, hr, hrl⟩
    have hsome : ((queryTopN store loc 1).head?).isSome = true := by
      rw [Option.isSome_iff_ne_none]
      intro hnone2
      exact hne (List.head?_eq_none_iff.mp hnone2)
    constructor
    · rw [countP_latest_heads]
      have hloc3 : loc = "Dow\x27s Lake" ∨ loc = "Fifth Avenue" ∨ loc = "NAC" := by
        simpa [locations] using hloc
      rcases hloc3 with rfl | rfl | rfl <;>
        simp [locations, List.countP_cons, hsome]
    · intro e hmem hel s hs hsl
      rw [List.mem_filterMap] at hmem
      obtain ⟨l, _, hfl⟩ := hmem
      have hl2 : e.location = l := queryTopN_head_location hfl
      rw [hl2] at hel
      subst hel
      exact queryTopN_head_max hfl s hs hsl
  · intro hnone
    rw [countP_latest_heads]
    have hnil : queryTopN store loc 1 = [] :=
      (queryTopN_one_nil_iff store loc).mpr hnone
    have hloc3 : loc = "Dow\x27s Lake" ∨ loc = "Fifth Avenue" ∨ loc = "NAC" := by
      simpa [locations] using hloc
    rcases hloc3 with rfl | rfl | rfl <;>
      simp [locations, List.countP_cons, hnil]

/-- C5, witness: the theorem applied at the concrete store with records
for the Dow location and NAC, at the location NAC. -/
theorem apiLatest_unique_maximal_witness :
    ∃ data, apiLatest (storeFetchLatest store3) = .ok data
      ∧ ((∃ r ∈ store3, r.location = "NAC") →
          data.countP (fun x => x.location == "NAC") = 1
          ∧ ∀ e ∈ data, e.location = "NAC" →
              ∀ s ∈ store3, s.location = "NAC" → s.windowEnd ≤ e.windowEnd)
      ∧ ((∀ r ∈ store3, ¬ r.location = "NAC") →
          data.countP (fun x => x.location == "NAC") = 0) :=
  apiLatest_unique_maximal store3 "NAC" (by decide)

theorem statusTally_safe (store : Store) (locs : List String) :
    (statusTally store locs).countSafe
      = locs.countP (fun l => latestStatus store l == some "Safe") := by
  induction locs with
  | nil => rfl
  | cons loc rest ih =>
    simp only [statusTally, List.countP_cons]
    cases h : latestStatus store loc with
    | none => simp [h, ih]
    | some s =>
      by_cases hs : s = "Safe"
      · subst hs; simp [h, ih]
      · by_cases hc : s = "Caution"
        · subst hc; simp [h, ih]
        · simp [h, ih, hs, hc]

theorem statusTally_caution (store : Store) (locs : List String) :
    (statusTally store locs).countCaution
      = locs.countP (fun l => latestStatus store l == some "Caution") := by
  induction locs with
  | nil => rfl
  | cons loc rest ih =>
    simp only [statusTally, List.countP_cons]
    cases h : latestStatus store loc with
    | none => simp [h, ih]
    | some s =>
      by_cases hs : s = "Safe"
      · subst hs; simp [h, ih]
      · by_cases hc : s = "Caution"
        · subst hc; simp [h, ih]
        · simp [h, ih, hs, hc]

theorem statusTally_elseBranch (store : Store) (locs : List String) :
    (statusTally store locs).countUnsafe
      = locs.countP (fun l => notSafeNotCaution (latestStatus store l)) := by
  induction locs with
  | nil => rfl
  | cons loc rest ih =>
    simp only [statusTally, List.countP_cons]
    cases h : latestStatus store loc with
    | none => simp [h, ih, notSafeNotCaution]
    | some s =>
      by_cases hs : s = "Safe"
      · subst hs; simp [h, ih, notSafeNotCaution]
      · by_cases hc : s = "Caution"
        · subst hc; simp [h, ih, notSafeNotCaution]
        · simp [h, ih, hs, hc, notSafeNotCaution]

theorem statusTally_sum (store : Store) (locs : List String) :
    (statusTally store locs).countSafe + (statusTally store locs).countCaution
      + (statusTally store locs).countUnsafe
      = locs.countP (fun l => (latestStatus store l).isSome) := by
  induction locs with
  | nil => rfl
  | cons loc rest ih =>
    simp only [statusTally, List.countP_cons]
    cases h : latestStatus store loc with
    | none => simp [h, ih]
    | some s =>
      by_cases hs : s = "Safe"
      · subst hs; simp only [h]; simp; omega
      · by_cases hc : s = "Caution"
        · subst hc; simp only [h]; simp [hs]; omega
        · simp only [h]; simp [hs, hc]; omega

/-- C6: with every stored latest status among the three known values, the
overall status follows strict priority: any location Unsafe forces
overall Unsafe regardless of the others; otherwise any location Caution
gives overall Caution; otherwise (every location Safe or without data)
the overall status is Safe. -/
theorem overallStatus_priority (store : Store)
    (hval : ∀ loc ∈ locations, knownStatus (latestStatus store loc) = true) :
    ((∃ loc ∈ locations, latestStatus store loc = some "Unsafe") →
      (apiStatus store).overallStatus = "Unsafe")
    ∧ ((∀ loc ∈ locations, latestStatus store loc ≠ some "Unsafe") →
      (∃ loc ∈ locations, latestStatus store loc = some "Caution") →
      (apiStatus store).overallStatus = "Caution")
    ∧ ((∀ loc ∈ locations, ∀ s, latestStatus store loc = some s → s = "Safe") →
      (apiStatus store).overallStatus = "Safe") := by
  refine ⟨?_, ?_, ?_⟩
  · rintro ⟨loc, hl, he⟩
    have hpos : 0 < (statusTally store locations).countUnsafe := by
      rw [statusTally_elseBranch, List.countP_pos_iff]
      exact ⟨loc, hl, by simp [he, notSafeNotCaution]⟩
    show overallOf (statusTally store locations) = "Unsafe"
    unfold overallOf
    rw [if_pos hpos]
  · rintro hno ⟨loc, hl, he⟩
    have hzero : (statusTally store locations).countUnsafe = 0 := by
      rw [statusTally_elseBranch, List.countP_eq_zero]
      intro l hlmem
      cases h : latestStatus store l with
      | none => simp [notSafeNotCaution]
      | some s =>
        have hk := hval l hlmem
        rw [h] at hk
        simp only [knownStatus, Bool.or_eq_true, beq_iff_eq] at hk
        rcases hk with (rfl | rfl) | rfl
        · simp [notSafeNotCaution]
        · simp [notSafeNotCaution]
        · exact absurd h (hno l hlmem)
    have hpos : 0 < (statusTally store locations).countCaution := by
      rw [statusTally_caution, List.countP_pos_iff]
      exact ⟨loc, hl, by simp [he]⟩
    show overallOf (statusTally store locations) = "Caution"
    unfold overallOf
    rw [hzero, if_neg (by omega), if_pos hpos]
  · intro hall
    have hzeroU : (statusTally store locations).countUnsafe = 0 := by
      rw [statusTally_elseBranch, List.countP_eq_zero]
      intro l hlmem
      cases h : latestStatus store l with
      | none => simp [notSafeNotCaution]
      | some s =>
        have := hall l hlmem s h
        subst this
        simp [notSafeNotCaution]
    have hzeroC : (statusTally store locations).countCaution = 0 := by
      rw [statusTally_caution, List.countP_eq_zero]
      intro l hlmem
      cases h : latestStatus store l with
      | none => simp
      | some s =>
        have := hall l hlmem s h
        subst this
        simp
    show overallOf (statusTally store locations) = "Safe"
    unfold overallOf
    rw [hzeroU, hzeroC, if_neg (by omega), if_neg (by omega)]

/-- C6, witness: with latest statuses Unsafe, Safe, Caution for the three
locations, the theorem yields overall status Unsafe. -/
theorem overallStatus_priority_witness :
    (∀ loc ∈ locations, knownStatus (latestStatus storeMix loc) = true)
    ∧ (apiStatus storeMix).overallStatus = "Unsafe" :=
  ⟨by decide, (overallStatus_priority storeMix (by decide)).1 (by decide)⟩

/-- C7: the total of the status breakdown is always the size of the fixed
location set; the safe and caution tallies count exactly the locations
whose latest status is the corresponding literal, and the three tallies
together count exactly the locations that have data -- so a location with
no records is counted in no tally yet is part of total.  Concretely, one
Safe location with the other two lacking data yields overall Safe, and
one Caution location with the other two lacking data yields overall
Caution. -/
theorem status_total_and_nodata_tally (store : Store) :
    (apiStatus store).breakdownTotal = locations.length
    ∧ (apiStatus store).breakdownSafe
        = locations.countP (fun l => latestStatus store l == some "Safe")
    ∧ (apiStatus store).breakdownCaution
        = locations.countP (fun l => latestStatus store l == some "Caution")
    ∧ (apiStatus store).breakdownSafe + (apiStatus store).breakdownCaution
        + (apiStatus store).breakdownUnsafe
        = locations.countP (fun l => (latestStatus store l).isSome)
    ∧ (apiStatus storeSafeNoData).overallStatus = "Safe"
    ∧ (apiStatus storeCautionNoData).overallStatus = "Caution" :=
  ⟨rfl, statusTally_safe store locations, statusTally_caution store locations,
   statusTally_sum store locations, by decide, by decide⟩

/-- C8: a stored record whose safetyStatus is outside the three known
values is classified fail-safe by the status tally: it makes the unsafe
tally positive, while the safe and caution tallies count only the
locations whose latest status is literally Safe resp. Caution -- so the
unrecognized status is never counted there. -/
theorem unknown_status_failsafe (store : Store) (loc : String) (s : String)
    (hmem : loc ∈ locations) (hs : latestStatus store loc = some s)
    (h1 : s ≠ "Safe") (h2 : s ≠ "Caution") (_h3 : s ≠ "Unsafe") :
    0 < (apiStatus store).breakdownUnsafe
    ∧ (apiStatus store).breakdownSafe
        = locations.countP (fun l => latestStatus store l == some "Safe")
    ∧ (apiStatus store).breakdownCaution
        = locations.countP (fun l => latestStatus store l == some "Caution") := by
  refine ⟨?_, statusTally_safe store locations, statusTally_caution store locations⟩
  show 0 < (statusTally store locations).countUnsafe
  rw [statusTally_elseBranch, List.countP_pos_iff]
  exact ⟨loc, hmem, by simp [hs, notSafeNotCaution, h1, h2]⟩

/-- C8, witness: the theorem applied at a store whose NAC record carries
the unrecognized status Slushy. -/
theorem unknown_status_failsafe_witness :
    0 < (apiStatus storeSlushy).breakdownUnsafe
    ∧ (apiStatus storeSlushy).breakdownSafe
        = locations.countP (fun l => latestStatus storeSlushy l == some "Safe")
    ∧ (apiStatus storeSlushy).breakdownCaution
        = locations.countP (fun l => latestStatus storeSlushy l == some "Caution") :=
  unknown_status_failsafe storeSlushy "NAC" "Slushy" (by decide) (by decide)
    (by decide) (by decide) (by decide)
